import Mathlib

/-!
Verification development for the Carbonite aggregate-consistency and ranking
engine.  The definitions below are a shallow embedding of the repository's
two core sources:

* the SQL migration (tables user_actions / user_stats / global_emissions /
  sync_audit_log, the triggers global_sync_trigger and
  global_sync_insert_trigger with trigger function
  global_sync_trigger_function, the reconciler
  sync_global_emissions_from_user_stats, and the ranking function
  get_leaderboard);
* the TypeScript read adapter src/services/climateStats.ts
  (getUserStatistics and calculateLeaderboardFromStats).

SQL NUMERIC columns are modelled by Rat (NUMERIC is exact decimal
arithmetic), TIMESTAMPTZ by Int, uuids/ids by Nat.  PostgreSQL row-trigger
semantics that matter here are modelled explicitly:

* both triggers are declared AFTER; an AFTER row trigger's assignments to
  NEW are discarded by PostgreSQL (the return value of an AFTER row trigger
  is ignored), so the statement "NEW.verified_at := NOW()" in
  global_sync_trigger_function has no effect on the stored row;
* in a row trigger fired by INSERT the OLD record is not assigned, and a
  PL/pgSQL reference to a field of it (here "OLD.verified") raises
  "record old is not assigned yet", which inside an AFTER trigger aborts
  the whole INSERT statement.
-/

namespace Carbonite

/-- Errors surfaced by the embedded write paths: CHECK-constraint rejection
of an invalid row, and the PL/pgSQL runtime error raised when the trigger
function touches the unassigned OLD record on INSERT. -/
inductive DbErr where
  | invalidInput
  | oldNotAssigned
  deriving DecidableEq, Repr

/-- One row of user_actions: the event store.  Columns action_type and unit
carry no numeric content and are omitted; quantity and emissions_saved_lbs
are the CHECKed numeric columns. -/
structure ActionRow where
  action_id : Nat
  user_id : Nat
  quantity : Rat
  emissions_saved_lbs : Rat
  verified : Bool
  created_at : Int
  verified_at : Option Int
  deriving DecidableEq, Repr

/-- One row of user_stats: the per-actor rollup.  The monthly_lbs/yearly_lbs
JSONB buckets are never read or written by the trigger, the reconciler or
get_leaderboard, and are omitted. -/
structure StatsRow where
  user_id : Nat
  total_emissions_lbs : Rat
  action_count : Nat
  last_updated : Int
  deriving DecidableEq, Repr

/-- The singleton global_emissions row (id = 1). -/
structure GlobalRow where
  total_lbs_saved : Rat
  total_actions : Nat
  last_updated : Int
  deriving DecidableEq, Repr

/-- One row of sync_audit_log (log_id and the null details payload omitted). -/
structure AuditRow where
  check_timestamp : Int
  was_in_sync : Bool
  user_stats_sum : Rat
  global_total : Rat
  discrepancy : Rat
  fixed : Bool
  deriving DecidableEq, Repr

/-- One row of users (password hash, country omitted; username is nullable,
email is not null; both are modelled as opaque Nat codes). -/
structure UserRow where
  user_id : Nat
  username : Option Nat
  email : Nat
  deriving DecidableEq, Repr

/-- The database state the migration defines. -/
structure DB where
  events : List ActionRow
  stats : List StatsRow
  global : GlobalRow
  audit : List AuditRow
  users : List UserRow
  nextId : Nat
  deriving DecidableEq, Repr

/-- The freshly migrated database: empty tables and the initialized
global_emissions row (0, 0). -/
def initDB : DB := ⟨[], [], ⟨0, 0, 0⟩, [], [], 0⟩

/-- SELECT COALESCE(SUM(total_emissions_lbs), 0) FROM user_stats. -/
def statsSum (s : DB) : Rat :=
  (s.stats.map (·.total_emissions_lbs)).sum

/-- The reconciliation tolerance: 0.01 lbs. -/
def eps : Rat := 1 / 100

/-- SELECT ... FROM user_actions WHERE action_id = e. -/
def findEvent (s : DB) (e : Nat) : Option ActionRow :=
  s.events.find? (·.action_id == e)

/-- SELECT ... FROM user_stats WHERE user_id = uid. -/
def lookupStats (l : List StatsRow) (uid : Nat) : Option StatsRow :=
  l.find? (·.user_id == uid)

/-- The INSERT ... ON CONFLICT (user_id) DO UPDATE in
global_sync_trigger_function: create the rollup with (q, 1) when absent,
otherwise add q to the total and 1 to the count. -/
def upsertStats (l : List StatsRow) (uid : Nat) (q : Rat) (t : Int) : List StatsRow :=
  match l with
  | [] => [⟨uid, q, 1, t⟩]
  | r :: rs =>
    if r.user_id == uid then
      { r with total_emissions_lbs := r.total_emissions_lbs + q,
               action_count := r.action_count + 1,
               last_updated := t } :: rs
    else r :: upsertStats rs uid q t

/-- The IF-guard of global_sync_trigger_function:
NEW.verified = TRUE AND (OLD.verified IS NULL OR OLD.verified = FALSE).
When the function runs for an INSERT, OLD is an unassigned record and the
reference OLD.verified raises a runtime error; when OLD is assigned, its
verified column is NOT NULL, so the IS NULL disjunct is false. -/
def trigCond (old : Option ActionRow) (nw : ActionRow) : Except DbErr Bool :=
  if nw.verified then
    match old with
    | none => .error .oldNotAssigned
    | some o => .ok (o.verified == false)
  else .ok false

/-- The two aggregation statements of global_sync_trigger_function: the
user_stats upsert and the global_emissions increment.  The trailing
"NEW.verified_at := NOW()" of the function body is absent here because the
trigger is declared AFTER and PostgreSQL discards an AFTER row trigger's
changes to NEW. -/
def applyAgg (nw : ActionRow) (t : Int) (s : DB) : DB :=
  { s with
      stats := upsertStats s.stats nw.user_id nw.emissions_saved_lbs t,
      global := ⟨s.global.total_lbs_saved + nw.emissions_saved_lbs,
                 s.global.total_actions + 1, t⟩ }

/-- INSERT INTO user_actions: enforces the CHECK constraints
(quantity > 0, emissions_saved_lbs >= 0), appends the row, and fires
global_sync_insert_trigger when the new row is already verified.  An error
raised inside the AFTER trigger aborts the whole INSERT, so the error case
returns no successor state. -/
def insertAction (s : DB) (uid : Nat) (qty lbs : Rat) (ver : Bool) (t : Int) :
    Except DbErr DB :=
  if qty ≤ 0 ∨ lbs < 0 then .error .invalidInput
  else
    let row : ActionRow := ⟨s.nextId, uid, qty, lbs, ver, t, none⟩
    let s1 := { s with events := s.events ++ [row], nextId := s.nextId + 1 }
    if ver then
      match trigCond none row with
      | .ok true => .ok (applyAgg row t s1)
      | .ok false => .ok s1
      | .error e => .error e
    else .ok s1

/-- Result of markVerified: the event-store contract surfaces NotFound for a
missing event and succeeds (possibly as a no-op) otherwise. -/
inductive MvRes where
  | ok
  | notFound
  deriving DecidableEq, Repr

/-- Replace the event with id e by nw in the event store. -/
def updEvents (s : DB) (e : Nat) (nw : ActionRow) : DB :=
  { s with events := s.events.map (fun a => if a.action_id == e then nw else a) }

/-- UPDATE user_actions SET verified = TRUE WHERE action_id = e, together
with the AFTER UPDATE trigger global_sync_trigger.  The trigger's WHEN
clause only passes on a false-to-true transition, so an already verified
event is left untouched (idempotent no-op).  OLD is assigned for an UPDATE,
so trigCond cannot error on this path. -/
def markVerified (s : DB) (e : Nat) (t : Int) : MvRes × DB :=
  match findEvent s e with
  | none => (.notFound, s)
  | some ev =>
    if ev.verified then (.ok, s)
    else
      let nw := { ev with verified := true }
      match trigCond (some ev) nw with
      | .ok true => (.ok, applyAgg nw t (updEvents s e nw))
      | _ => (.ok, updEvents s e nw)

/-- The row returned by sync_global_emissions_from_user_stats. -/
structure ReconRow where
  was_in_sync : Bool
  user_stats_sum : Rat
  global_total : Rat
  fixed : Bool
  deriving DecidableEq, Repr

/-- sync_global_emissions_from_user_stats: sum the actor rollups, compare to
the global rollup within eps; when out of sync overwrite the global total
with the actor sum and append one sync_audit_log row; return
(is_synced, stats_sum, global_val, NOT is_synced). -/
def reconcile (s : DB) (t : Int) : ReconRow × DB :=
  let stats_sum := statsSum s
  let global_val := s.global.total_lbs_saved
  if abs (stats_sum - global_val) < eps then
    (⟨true, stats_sum, global_val, false⟩, s)
  else
    (⟨false, stats_sum, global_val, true⟩,
     { s with
         global := ⟨stats_sum, s.global.total_actions, t⟩,
         audit := s.audit ++
           [⟨t, false, stats_sum, global_val, abs (stats_sum - global_val), true⟩] })

/-- The operations a client may run before a reconciliation pass: append a
new (unverified) event, or mark an existing event verified. -/
inductive Op where
  | append (uid : Nat) (qty lbs : Rat) (t : Int)
  | markVerified (e : Nat) (t : Int)

/-- Run one operation; a rejected append (CHECK violation) leaves the state
unchanged, exactly as an aborted INSERT does. -/
def applyOp (s : DB) : Op → DB
  | .append uid qty lbs t =>
    match insertAction s uid qty lbs false t with
    | .ok s1 => s1
    | .error _ => s
  | .markVerified e t => (markVerified s e t).2

/-- Run a whole client history. -/
def applyOps (s : DB) (ops : List Op) : DB :=
  ops.foldl applyOp s

/-- Helper: after any reconcile pass the global total is within eps of the
actor-rollup sum (either the pass found them in sync, or it overwrote the
global total with the sum). -/
theorem reconcile_bound (s : DB) (t : Int) :
    abs ((reconcile s t).2.global.total_lbs_saved - statsSum (reconcile s t).2) < eps := by
  by_cases h : abs (statsSum s - s.global.total_lbs_saved) < eps
  · simp only [reconcile, if_pos h]
    simpa [abs_sub_comm] using h
  · simp only [reconcile, if_neg h]
    simp [statsSum, eps]

/-- Claim C1: for every sequence of append and markVerified operations
followed by a reconcile pass, the absolute difference between the global
rollup total and the sum of the actor rollup totals is below eps = 0.01
after reconcile returns, whatever the order of the operations. -/
theorem global_matches_actor_sum_after_reconcile (ops : List Op) (t : Int) :
    abs ((reconcile (applyOps initDB ops) t).2.global.total_lbs_saved -
         statsSum (reconcile (applyOps initDB ops) t).2) < eps :=
  reconcile_bound (applyOps initDB ops) t

/-- Claim C2: reconcile computes the actor-rollup sum; in sync (difference
below eps) it reports was_in_sync = true and writes nothing; out of sync it
overwrites the global total with the actor sum, reports fixed = true, and
appends one audit record carrying both observed values and their
discrepancy. -/
theorem reconcile_functional (s : DB) (t : Int) :
    (reconcile s t).1 =
      ⟨decide (abs (statsSum s - s.global.total_lbs_saved) < eps), statsSum s,
       s.global.total_lbs_saved,
       !decide (abs (statsSum s - s.global.total_lbs_saved) < eps)⟩ ∧
    (reconcile s t).2 =
      (if abs (statsSum s - s.global.total_lbs_saved) < eps then s
       else
         { s with
             global := ⟨statsSum s, s.global.total_actions, t⟩,
             audit := s.audit ++
               [⟨t, false, statsSum s, s.global.total_lbs_saved,
                 abs (statsSum s - s.global.total_lbs_saved), true⟩] }) := by
  by_cases h : abs (statsSum s - s.global.total_lbs_saved) < eps
  · simp only [reconcile, if_pos h]
    simp [h]
  · simp only [reconcile, if_neg h]
    simp [h]

/-- Helper: looking up the upserted actor in the rollup table yields the
created-with-(q,1) row when the actor was absent, and the incremented row
otherwise. -/
theorem lookup_upsertStats (l : List StatsRow) (uid : Nat) (q : Rat) (t : Int) :
    lookupStats (upsertStats l uid q t) uid =
      some (match lookupStats l uid with
            | none => ⟨uid, q, 1, t⟩
            | some r =>
              { r with total_emissions_lbs := r.total_emissions_lbs + q,
                       action_count := r.action_count + 1,
                       last_updated := t }) := by
  induction l with
  | nil => simp [upsertStats, lookupStats, List.find?]
  | cons r rs ih =>
    by_cases h : r.user_id == uid
    · simp [upsertStats, lookupStats, List.find?, h]
    · simp only [upsertStats, if_neg h]
      simp only [lookupStats, List.find?, h] at ih ⊢
      exact ih

/-- Claim C3: a single false-to-true verification transition adds the event's
savings to the actor rollup (creating it with that quantity and count 1 when
absent, incrementing total and count otherwise) and adds the savings and one
event to the global rollup. -/
theorem markVerified_applies_delta (s : DB) (e : Nat) (t : Int) (ev : ActionRow)
    (hf : findEvent s e = some ev) (hv : ev.verified = false) :
    lookupStats ((markVerified s e t).2).stats ev.user_id =
      some (match lookupStats s.stats ev.user_id with
            | none => ⟨ev.user_id, ev.emissions_saved_lbs, 1, t⟩
            | some r =>
              { r with total_emissions_lbs := r.total_emissions_lbs + ev.emissions_saved_lbs,
                       action_count := r.action_count + 1,
                       last_updated := t }) ∧
    ((markVerified s e t).2).global.total_lbs_saved =
      s.global.total_lbs_saved + ev.emissions_saved_lbs ∧
    ((markVerified s e t).2).global.total_actions = s.global.total_actions + 1 := by
  simp only [markVerified, hf, hv, trigCond, applyAgg, updEvents]
  simp [lookup_upsertStats]

/-- A concrete database used to witness the aggregation and idempotence
theorems: one unverified event of 3 lbs for actor 4, empty rollups. -/
def dbAgg : DB :=
  ⟨[⟨0, 4, 1, 3, false, 0, none⟩], [], ⟨0, 0, 0⟩, [], [], 1⟩

/-- Witness for claim C3 at a concrete input: verifying the single 3 lbs
event of actor 4 creates the actor rollup (3, 1) and moves the global rollup
from (0, 0) to (3, 1). -/
theorem markVerified_applies_delta_witness :
    findEvent dbAgg 0 = some ⟨0, 4, 1, 3, false, 0, none⟩ ∧
    lookupStats ((markVerified dbAgg 0 7).2).stats 4 = some ⟨4, 3, 1, 7⟩ ∧
    ((markVerified dbAgg 0 7).2).global.total_lbs_saved = 0 + 3 ∧
    ((markVerified dbAgg 0 7).2).global.total_actions = 0 + 1 := by
  refine ⟨by decide, ?_⟩
  have h := markVerified_applies_delta dbAgg 0 7 ⟨0, 4, 1, 3, false, 0, none⟩
    (by decide) (by decide)
  simpa [dbAgg, lookupStats, List.find?] using h

/-- Bool-valued check that an event exists and is already verified. -/
def eventVerified (s : DB) (e : Nat) : Bool :=
  match findEvent s e with
  | some ev => ev.verified
  | none => false

/-- Helper: updating the matching event in the store makes the subsequent
lookup return the replacement, provided the replacement keeps the id. -/
theorem find_update (l : List ActionRow) (e : Nat) (ev nw : ActionRow)
    (h : l.find? (·.action_id == e) = some ev) (hid : nw.action_id = ev.action_id) :
    (l.map (fun a => if a.action_id == e then nw else a)).find? (·.action_id == e) =
      some nw := by
  induction l with
  | nil => simp [List.find?] at h
  | cons a l ih =>
    by_cases ha : a.action_id == e
    · have hae : ev = a := by
        simp only [List.find?, ha] at h
        exact (Option.some.injEq _ _ ▸ h.symm)
      have hne : nw.action_id == e := by
        have : nw.action_id = a.action_id := hae ▸ hid
        simpa [this] using ha
      simp [List.find?, ha, hne]
    · simp only [List.find?, ha] at h
      simpa [List.find?, ha] using ih h

/-- Helper: a second markVerified of the same event leaves the state exactly
where the first call left it. -/
theorem markVerified_markVerified (s : DB) (e : Nat) (t1 t2 : Int) :
    (markVerified ((markVerified s e t1).2) e t2).2 = (markVerified s e t1).2 := by
  rcases hf : findEvent s e with _ | ev
  · simp [markVerified, hf]
  · by_cases hv : ev.verified
    · simp [markVerified, hf, hv]
    · have hstep : (markVerified s e t1).2 =
          applyAgg { ev with verified := true } t1 (updEvents s e { ev with verified := true }) := by
        simp [markVerified, hf, hv, trigCond]
      have hfind2 : findEvent (markVerified s e t1).2 e =
          some { ev with verified := true } := by
        rw [hstep]
        have hid : ActionRow.action_id { ev with verified := true } = ev.action_id := rfl
        simpa [findEvent, applyAgg, updEvents] using
          find_update s.events e ev { ev with verified := true } hf hid
      generalize hgen : (markVerified s e t1).2 = s1 at hfind2 ⊢
      simp [markVerified, hfind2]

/-- Claim C4: markVerified is idempotent.  On an already verified event it
succeeds without touching the state (a no-op, not an error), and a second
call always leaves the actor and global rollups exactly as the first call
left them. -/
theorem markVerified_idempotent (s : DB) (e : Nat) (t1 t2 : Int) :
    (eventVerified s e = true → markVerified s e t1 = (.ok, s)) ∧
    ((markVerified ((markVerified s e t1).2) e t2).2).stats = ((markVerified s e t1).2).stats ∧
    ((markVerified ((markVerified s e t1).2) e t2).2).global = ((markVerified s e t1).2).global := by
  refine ⟨?_, ?_, ?_⟩
  · intro h
    rcases hf : findEvent s e with _ | ev
    · simp [eventVerified, hf] at h
    · have hv : ev.verified = true := by simpa [eventVerified, hf] using h
      simp [markVerified, hf, hv]
  · rw [markVerified_markVerified]
  · rw [markVerified_markVerified]

/-- A concrete database holding one already verified event of actor 4,
used to witness the idempotence theorem. -/
def dbVer : DB :=
  ⟨[⟨0, 4, 1, 3, true, 0, some 2⟩], [⟨4, 3, 1, 2⟩], ⟨3, 1, 2⟩, [], [], 1⟩

/-- Witness for claim C4 at a concrete input: marking the already verified
event again is accepted and changes nothing, and a repeated call leaves the
rollups of the single-call state untouched. -/
theorem markVerified_idempotent_witness :
    eventVerified dbVer 0 = true ∧
    markVerified dbVer 0 5 = (.ok, dbVer) ∧
    ((markVerified ((markVerified dbAgg 0 5).2) 0 6).2).stats =
      ((markVerified dbAgg 0 5).2).stats := by
  refine ⟨by decide, (markVerified_idempotent dbVer 0 5 6).1 (by decide),
    (markVerified_idempotent dbAgg 0 5 6).2.1⟩

/-- Claim C8 failing input: after marking the unverified event of dbAgg,
the stored row has verified = true but verified_at still NULL.  The trigger
function's assignment NEW.verified_at := NOW() is discarded because the
trigger fires AFTER UPDATE, so no write path of the migration ever fills
verified_at and the invariant "verified_at is set iff verified" fails. -/
theorem verified_at_stays_null :
    ((markVerified dbAgg 0 7).2).events.map (fun a => (a.verified, a.verified_at)) =
      [(true, none)] := by
  decide

/-- Claim C10 failing input: inserting an event that already carries
verified = TRUE fires global_sync_insert_trigger, whose function reads
OLD.verified; OLD is unassigned for an INSERT, so PL/pgSQL raises an error
and the AFTER trigger aborts the whole INSERT.  The event is neither stored
nor aggregated. -/
theorem insert_verified_event_aborts :
    insertAction initDB 7 1 3 true 0 = .error .oldNotAssigned := by
  norm_num [insertAction, trigCond, initDB]

/-- Claim C7 counterexample: a reconcile pass over the freshly migrated
in-sync database appends no audit record at all, so it is false that every
pass (including in-sync passes) produces exactly one audit record. -/
theorem reconcile_in_sync_appends_no_audit :
    ((reconcile initDB 0).2.audit).length = 0 ∧
    (reconcile initDB 0).1.was_in_sync = true := by
  have h : abs (statsSum initDB - initDB.global.total_lbs_saved) < eps := by
    norm_num [statsSum, initDB, eps]
  simp only [reconcile, if_pos h]
  simp [initDB]

/-- Claim C7 (amended): reconcile always returns exactly one result row, and
it appends an audit record exactly on out-of-sync passes - one per such
pass, none when the rollups agree within eps. -/
theorem reconcile_audit_records (s : DB) (t : Int) :
    ((reconcile s t).2.audit).length =
      s.audit.length +
        (if abs (statsSum s - s.global.total_lbs_saved) < eps then 0 else 1) := by
  by_cases h : abs (statsSum s - s.global.total_lbs_saved) < eps
  · simp only [reconcile, if_pos h]
    simp [h]
  · simp only [reconcile, if_neg h]
    simp [h]

/-! Ordering machinery shared by the SQL leaderboard model and the
TypeScript fallback model.  Both ORDER BY and the stable JavaScript
Array.sort are modelled by a stable insertion sort over a Bool
comparator. -/

/-- Insert x in front of the first element it compares at-or-before;
equal elements keep their original relative order (stability). -/
def insertRel (le : α → α → Bool) (x : α) : List α → List α
  | [] => [x]
  | y :: l => if le x y then x :: y :: l else y :: insertRel le x l

/-- Stable insertion sort by a Bool comparator. -/
def sortRel (le : α → α → Bool) : List α → List α
  | [] => []
  | x :: l => insertRel le x (sortRel le l)

theorem mem_insertRel (le : α → α → Bool) (x a : α) (l : List α) :
    a ∈ insertRel le x l ↔ a = x ∨ a ∈ l := by
  induction l with
  | nil => simp [insertRel]
  | cons y l ih =>
    by_cases h : le x y
    · simp [insertRel, h]
    · simp [insertRel, h, ih]
      tauto

theorem mem_sortRel (le : α → α → Bool) (a : α) (l : List α) :
    a ∈ sortRel le l ↔ a ∈ l := by
  induction l with
  | nil => simp [sortRel]
  | cons x l ih => simp [sortRel, mem_insertRel, ih]

theorem pairwise_insertRel (le : α → α → Bool)
    (htot : ∀ a b, le a b = true ∨ le b a = true)
    (htrans : ∀ a b c, le a b = true → le b c = true → le a c = true)
    (x : α) (l : List α) (hl : l.Pairwise (fun a b => le a b = true)) :
    (insertRel le x l).Pairwise (fun a b => le a b = true) := by
  induction l with
  | nil => simp [insertRel]
  | cons y l ih =>
    rcases List.pairwise_cons.mp hl with ⟨hy, hl'⟩
    by_cases h : le x y
    · simp only [insertRel, if_pos h]
      refine List.pairwise_cons.mpr ⟨?_, hl⟩
      intro z hz
      rcases List.mem_cons.mp hz with rfl | hz
      · exact h
      · exact htrans x y z h (hy z hz)
    · simp only [insertRel, if_neg h]
      refine List.pairwise_cons.mpr ⟨?_, ih hl'⟩
      intro z hz
      rcases (mem_insertRel le x z l).mp hz with rfl | hz
      · rcases htot y z with hyz | hzy
        · exact hyz
        · exact absurd hzy (by simpa using h)
      · exact hy z hz

theorem pairwise_sortRel (le : α → α → Bool)
    (htot : ∀ a b, le a b = true ∨ le b a = true)
    (htrans : ∀ a b c, le a b = true → le b c = true → le a c = true)
    (l : List α) : (sortRel le l).Pairwise (fun a b => le a b = true) := by
  induction l with
  | nil => simp [sortRel]
  | cons x l ih => exact pairwise_insertRel le htot htrans x (sortRel le l) ih

/-! The SQL ranking function get_leaderboard. -/

/-- Floor of a rational, computed on its normal form (the denominator is
positive, so flooring integer division gives the floor). -/
def ratFloor (q : Rat) : Int := q.num.fdiv q.den

/-- ROUND(x, 2) on NUMERIC: round to two decimals, halves away from zero. -/
def roundTo2 (q : Rat) : Rat :=
  (if 0 ≤ q then ((ratFloor (q * 100 + 1 / 2) : Int) : Rat)
   else -((ratFloor (-q * 100 + 1 / 2) : Int) : Rat)) / 100

/-- SELECT MAX(verified_at) FROM user_actions WHERE user_id = uid AND
verified = TRUE (SQL MAX ignores NULLs and is NULL on an empty set). -/
def maxVerifiedAt (s : DB) (uid : Nat) : Option Int :=
  (s.events.filterMap
    (fun a => if a.user_id == uid && a.verified then a.verified_at else none)).max?

/-- One row of the ranked_users CTE of get_leaderboard. -/
structure RankedUser where
  user_id : Nat
  username : Nat
  total_emissions_lbs : Rat
  action_count : Nat
  last_updated : Int
  last_verified_action_at : Int
  deriving DecidableEq, Repr

/-- The ranked_users CTE: user_stats JOIN users, restricted to positive
totals, with username := COALESCE(username, email) and
last_verified_action_at := COALESCE(MAX(verified_at), last_updated). -/
def rankedUsers (s : DB) : List RankedUser :=
  s.stats.filterMap (fun us =>
    if 0 < us.total_emissions_lbs then
      (s.users.find? (·.user_id == us.user_id)).map (fun u =>
        ⟨us.user_id, u.username.getD u.email, us.total_emissions_lbs,
         us.action_count, us.last_updated,
         (maxVerifiedAt s us.user_id).getD us.last_updated⟩)
    else none)

/-- The ORDER BY key of get_leaderboard: total_emissions_lbs descending,
then last_verified_action_at descending. -/
def lbLe (a b : RankedUser) : Bool :=
  decide (b.total_emissions_lbs < a.total_emissions_lbs ∨
    (a.total_emissions_lbs = b.total_emissions_lbs ∧
     b.last_verified_action_at ≤ a.last_verified_action_at))

theorem lbLe_total (a b : RankedUser) : lbLe a b = true ∨ lbLe b a = true := by
  simp only [lbLe, decide_eq_true_eq]
  rcases lt_trichotomy a.total_emissions_lbs b.total_emissions_lbs with h | h | h
  · right; left; exact h
  · rcases le_total a.last_verified_action_at b.last_verified_action_at with h2 | h2
    · right; right; exact ⟨h.symm, h2⟩
    · left; right; exact ⟨h, h2⟩
  · left; left; exact h

theorem lbLe_trans (a b c : RankedUser) (h1 : lbLe a b = true) (h2 : lbLe b c = true) :
    lbLe a c = true := by
  simp only [lbLe, decide_eq_true_eq] at h1 h2 ⊢
  rcases h1 with h1 | ⟨h1e, h1t⟩
  · rcases h2 with h2 | ⟨h2e, h2t⟩
    · left; exact h2.trans h1
    · left; exact h2e ▸ h1
  · rcases h2 with h2 | ⟨h2e, h2t⟩
    · left; exact h1e ▸ h2
    · right; exact ⟨h1e.trans h2e, h2t.trans h1t⟩

/-- One output row of get_leaderboard (rank, user, username, rounded total,
action count, last stats update). -/
structure LBRow where
  rank : Nat
  user_id : Nat
  username : Nat
  total_emissions_lbs : Rat
  action_count : Nat
  last_update_timestamp : Int
  deriving DecidableEq, Repr

/-- ROW_NUMBER() OVER the sorted CTE: assign 1-based positions in order and
project each ranked user onto an output row (rounding the total to two
decimals, as the source does). -/
def rankWith : Nat → List RankedUser → List LBRow
  | _, [] => []
  | n, r :: rs =>
    ⟨n, r.user_id, r.username, roundTo2 r.total_emissions_lbs,
     r.action_count, r.last_updated⟩ :: rankWith (n + 1) rs

/-- The full ordered leaderboard (before LIMIT). -/
def lbFull (s : DB) : List LBRow :=
  rankWith 1 (sortRel lbLe (rankedUsers s))

/-- get_leaderboard(limit_count): row numbers are computed over the fully
ordered set and LIMIT truncates afterwards. -/
def get_leaderboard (s : DB) (lim : Nat) : List LBRow :=
  (lbFull s).take lim

theorem map_rank_rankWith_take (l : List RankedUser) :
    ∀ (n k : Nat), ((rankWith n l).take k).map (·.rank) = List.range' n (min k l.length) := by
  induction l with
  | nil => intro n k; simp [rankWith]
  | cons r rs ih =>
    intro n k
    cases k with
    | zero => simp
    | succ k =>
      simp only [rankWith, List.take_succ_cons, List.map_cons, ih (n + 1) k,
        List.length_cons]
      rw [Nat.succ_min_succ, List.range'_succ]

theorem length_rankWith (l : List RankedUser) : ∀ n, (rankWith n l).length = l.length := by
  induction l with
  | nil => intro n; simp [rankWith]
  | cons r rs ih => intro n; simp [rankWith, ih]

/-- Claim C6 (amended, SQL path): get_leaderboard assigns ranks by position
after the full ordering, so the rank fields of a result of size N, read in
returned order, are exactly 1..N, and the result is the lim-prefix of the
fully ordered leaderboard (truncation happens after ordering). -/
theorem get_leaderboard_rank_contiguous (s : DB) (lim : Nat) :
    (get_leaderboard s lim).map (·.rank) =
      List.range' 1 ((get_leaderboard s lim).length) ∧
    get_leaderboard s lim = (lbFull s).take lim := by
  refine ⟨?_, rfl⟩
  have h := map_rank_rankWith_take (sortRel lbLe (rankedUsers s)) 1 lim
  simp only [get_leaderboard, lbFull] at h ⊢
  rw [h, List.length_take, length_rankWith]

/-! The TypeScript read adapter (src/services/climateStats.ts). -/

/-- Leaderboard periods. -/
inductive Period where
  | all_time
  | yearly
  | monthly
  | weekly
  deriving DecidableEq, Repr

/-- One stats row as fetched by calculateLeaderboardFromStats: either a
user_stats_summary row (total_co2_saved_kg / current_month_co2 /
current_year_co2) or a user_statistics row mapped through the same
field-name tolerant accessors, with the joined users!inner(username)
value. -/
structure StatsView where
  user_id : Nat
  username : Option Nat
  total_co2 : Rat
  month_co2 : Rat
  year_co2 : Rat
  deriving DecidableEq, Repr

/-- One LeaderboardEntry of the TypeScript service. -/
structure LBEntry where
  rank : Nat
  user_id : Nat
  username : Nat
  co2_saved_kg : Rat
  period : Period
  updated_at : Int
  deriving DecidableEq, Repr

/-- getCo2Value: pick the scoped value for the requested period; weekly is
estimated as monthly divided by four. -/
def co2ValueFor (period : Period) (s : StatsView) : Rat :=
  match period with
  | .yearly => s.year_co2
  | .monthly => s.month_co2
  | .weekly => s.month_co2 / 4
  | .all_time => s.total_co2

/-- Build the entries in the order the stats query returned them, assigning
rank := index + 1 in that order (the source assigns ranks inside the map,
before the value sort runs). -/
def entriesFrom (nowTs : Int) (period : Period) : Nat → List StatsView → List LBEntry
  | _, [] => []
  | n, s :: rest =>
    ⟨n, s.user_id, s.username.getD 0, co2ValueFor period s, period, nowTs⟩ ::
      entriesFrom nowTs period (n + 1) rest

/-- The stats-fallback leaderboard calculateLeaderboardFromStats, given the
rows of whichever stats generation answered.  The backing query orders by
total_co2_saved_kg descending and applies the limit there; ranks are then
assigned by position in that pre-sort order, and finally the entries are
re-sorted by the period-scoped value (JavaScript Array.sort, which is
stable).  There is no positive-value filter and no timestamp tie-break. -/
def calculateLeaderboardFromStats (nowTs : Int) (period : Period) (lim : Nat)
    (rows : List StatsView) : List LBEntry :=
  let stats := (sortRel (fun a b => decide (b.total_co2 ≤ a.total_co2)) rows).take lim
  let entries := entriesFrom nowTs period 1 stats
  sortRel (fun a b => decide (b.co2_saved_kg ≤ a.co2_saved_kg)) entries

/-- Claim C5 counterexample input: a single summary row with a zero total. -/
def zeroRow : StatsView := ⟨1, some 1, 0, 0, 0⟩

/-- Claim C5 counterexample: the stats-fallback leaderboard includes an
actor whose scoped value is 0, so it is false that every leaderboard
request returns only actors with value strictly greater than 0. -/
theorem calcLeaderboard_includes_zero_value_actor :
    (calculateLeaderboardFromStats 0 .all_time 100 [zeroRow]).map
      (fun e => (e.user_id, e.co2_saved_kg)) = [(1, 0)] := by
  decide

/-- Claim C6 counterexample input: two summary rows whose all-time order
(10 before 5) is the reverse of their monthly order (1 before 2). -/
def rowsMonthly : List StatsView := [⟨1, some 1, 10, 1, 0⟩, ⟨2, some 2, 5, 2, 0⟩]

/-- Claim C6 counterexample: for the monthly period the stats-fallback
leaderboard assigns ranks by all-time position before re-sorting by the
monthly value, so the returned rank fields read [2, 1] rather than the
contiguous 1..N sequence the claim requires. -/
theorem calcLeaderboard_ranks_out_of_order :
    (calculateLeaderboardFromStats 0 .monthly 10 rowsMonthly).map (·.rank) = [2, 1] ∧
    (calculateLeaderboardFromStats 0 .monthly 10 rowsMonthly).map (·.rank) ≠
      List.range' 1 ((calculateLeaderboardFromStats 0 .monthly 10 rowsMonthly).length) := by
  decide

theorem mem_rankWith (e : LBRow) (l : List RankedUser) :
    ∀ n, e ∈ rankWith n l →
      ∃ r ∈ l, e.user_id = r.user_id ∧
        e.total_emissions_lbs = roundTo2 r.total_emissions_lbs := by
  induction l with
  | nil => intro n h; simp [rankWith] at h
  | cons r rs ih =>
    intro n h
    rcases List.mem_cons.mp h with rfl | h
    · exact ⟨r, List.mem_cons_self r rs, rfl, rfl⟩
    · rcases ih (n + 1) h with ⟨r', hr', hid, htot⟩
      exact ⟨r', List.mem_cons_of_mem r hr', hid, htot⟩

theorem mem_rankedUsers_pos (s : DB) (r : RankedUser) (hr : r ∈ rankedUsers s) :
    0 < r.total_emissions_lbs := by
  rcases List.mem_filterMap.mp hr with ⟨us, _, hus⟩
  by_cases h : 0 < us.total_emissions_lbs
  · simp only [rankedUsers, if_pos h] at hus
    rcases Option.map_eq_some'.mp hus with ⟨u, _, rfl⟩
    exact h
  · simp [if_neg h] at hus

/-- Claim C5 (amended): the SQL get_leaderboard draws every returned entry
from an actor with total strictly greater than 0 and lists the ranked
actors in total-descending order with ties broken by the most recent
verified-event timestamp (falling back to the stats row's last_updated when
the actor has no verified_at), descending; the stats-fallback leaderboard
of the read adapter is ordered by the period-scoped value descending
only. -/
theorem leaderboard_ordering (s : DB) (lim : Nat) :
    (∀ e ∈ get_leaderboard s lim,
      ∃ r ∈ rankedUsers s, e.user_id = r.user_id ∧ 0 < r.total_emissions_lbs) ∧
    (sortRel lbLe (rankedUsers s)).Pairwise (fun a b => lbLe a b = true) ∧
    (∀ (nowTs : Int) (period : Period) (k : Nat) (rows : List StatsView),
      (calculateLeaderboardFromStats nowTs period k rows).Pairwise
        (fun a b => b.co2_saved_kg ≤ a.co2_saved_kg)) := by
  refine ⟨?_, pairwise_sortRel lbLe lbLe_total lbLe_trans _, ?_⟩
  · intro e he
    have he' : e ∈ lbFull s := List.mem_of_mem_take he
    rcases mem_rankWith e (sortRel lbLe (rankedUsers s)) 1 he' with ⟨r, hr, hid, _⟩
    have hr' : r ∈ rankedUsers s := (mem_sortRel lbLe r _).mp hr
    exact ⟨r, hr', hid, mem_rankedUsers_pos s r hr'⟩
  · intro nowTs period k rows
    have h := pairwise_sortRel (fun a b : LBEntry => decide (b.co2_saved_kg ≤ a.co2_saved_kg))
      (fun a b => by
        rcases le_total b.co2_saved_kg a.co2_saved_kg with h | h
        · left; simpa using h
        · right; simpa using h)
      (fun a b c h1 h2 => by
        simp only [decide_eq_true_eq] at h1 h2 ⊢
        exact h2.trans h1)
      (entriesFrom nowTs period 1
        ((sortRel (fun a b => decide (b.total_co2 ≤ a.total_co2)) rows).take k))
    refine List.Pairwise.imp ?_ h
    intro a b hab
    simpa using hab

/-- Concrete database for the C5 witness: two actors with equal 10 lbs
totals; actor 1 was last verified at time 1, actor 2 at the later time 2. -/
def dbTie : DB :=
  ⟨[⟨0, 1, 1, 10, true, 0, some 1⟩, ⟨1, 2, 1, 10, true, 0, some 2⟩],
   [⟨1, 10, 1, 1⟩, ⟨2, 10, 1, 2⟩],
   ⟨20, 2, 2⟩, [], [⟨1, some 11, 101⟩, ⟨2, some 12, 102⟩], 2⟩

/-- Witness for claim C5 at a concrete input: on the tied database the more
recently verified actor 2 is returned first (rank 1, before actor 1), and
the returned first entry stems from a positive-total ranked actor. -/
theorem leaderboard_ordering_witness :
    get_leaderboard dbTie 10 = [⟨1, 2, 12, 10, 1, 2⟩, ⟨2, 1, 11, 10, 1, 1⟩] ∧
    (∃ r ∈ rankedUsers dbTie, (⟨1, 2, 12, 10, 1, 2⟩ : LBRow).user_id = r.user_id ∧
      0 < r.total_emissions_lbs) := by
  have hround : roundTo2 10 = 10 := by
    norm_num [roundTo2, ratFloor]
    rw [show Int.fdiv 2001 2 = 1000 from by decide]
    norm_num
  have hlb : get_leaderboard dbTie 10 = [⟨1, 2, 12, 10, 1, 2⟩, ⟨2, 1, 11, 10, 1, 1⟩] := by
    norm_num [get_leaderboard, lbFull, rankedUsers, dbTie, maxVerifiedAt, sortRel,
      insertRel, lbLe, rankWith, hround, List.max?, List.find?, List.filterMap]
  refine ⟨hlb, ?_⟩
  exact (leaderboard_ordering dbTie 10).1 ⟨1, 2, 12, 10, 1, 2⟩
    (by rw [hlb]; exact List.mem_cons_self _ _)

/-! The per-actor read path getUserStatistics of climateStats.ts. -/

/-- One user_stats_summary row (production generation). -/
structure SummaryRow where
  user_id : Nat
  total_co2_saved_kg : Rat
  total_actions : Nat
  current_month_co2 : Rat
  current_year_co2 : Rat
  streak_days : Nat
  last_action_date : Option Int
  updated_at : Int
  deriving DecidableEq, Repr

/-- One user_statistics row (previous generation). -/
structure PrevStatsRow where
  user_id : Nat
  total_co2_saved_kg : Rat
  total_actions_count : Nat
  current_month_co2_saved : Rat
  current_year_co2_saved : Rat
  streak_days : Nat
  last_action_date : Option Int
  updated_at : Int
  deriving DecidableEq, Repr

/-- One legacy user_stats row (the generation of the SQL migration),
as the read adapter would see it. -/
structure LegacyStatsRow where
  user_id : Nat
  total_emissions_lbs : Rat
  deriving DecidableEq, Repr

/-- One legacy user_actions row through the columns the fallback
recomputation selects (custom_emissions_saved, the joined
action_templates.emissions_saved, logged_at). -/
structure OldActionRow where
  user_id : Nat
  custom_emissions_saved : Option Rat
  template_emissions_saved : Option Rat
  logged_at : Int
  deriving DecidableEq, Repr

/-- The tables the TypeScript stats read path can reach, plus the clock
values the fallback computation uses (start of the current month and year,
and the current time). -/
structure StatsDB where
  summary : List SummaryRow
  prevStats : List PrevStatsRow
  legacy : List LegacyStatsRow
  oldActions : List OldActionRow
  monthStart : Int
  yearStart : Int
  nowTs : Int
  deriving Repr

/-- The UserStatistics record the service returns. -/
structure UserStatistics where
  user_id : Nat
  total_co2_saved_kg : Rat
  total_actions_count : Nat
  current_month_co2_saved : Rat
  current_year_co2_saved : Rat
  streak_days : Nat
  last_action_date : Option Int
  updated_at : Int
  deriving DecidableEq, Repr

/-- 2.20462: the kg-to-lbs factor the source multiplies by. -/
def kgToLbsFactor : Rat := 220462 / 100000

/-- 0.453592: the lbs-to-kg factor the source multiplies by. -/
def lbsToKgFactor : Rat := 453592 / 1000000

/-- The per-action pounds value of the fallback:
custom_emissions_saved falsy-or (template emissions * 2.20462); JavaScript
treats both null and 0 as falsy. -/
def emissionsLbsOf (a : OldActionRow) : Rat :=
  let c := a.custom_emissions_saved.getD 0
  if c = 0 then a.template_emissions_saved.getD 0 * kgToLbsFactor else c

/-- calculateUserStatisticsFromActions: recompute the statistics from the
legacy user_actions rows of the user, ordered by logged_at descending;
pounds are converted to kilograms, month/year partial sums use the clock,
last_action_date is the first row in descending order, and streak_days is
hard-coded to 0 (a TODO in the source). -/
def calculateUserStatisticsFromActions (db : StatsDB) (u : Nat) : Option UserStatistics :=
  let acts := sortRel (fun a b : OldActionRow => decide (b.logged_at ≤ a.logged_at))
    (db.oldActions.filter (·.user_id == u))
  let kgs := acts.map (fun a => emissionsLbsOf a * lbsToKgFactor)
  some
    { user_id := u,
      total_co2_saved_kg := kgs.sum,
      total_actions_count := acts.length,
      current_month_co2_saved :=
        ((acts.filter (fun a => db.monthStart ≤ a.logged_at)).map
          (fun a => emissionsLbsOf a * lbsToKgFactor)).sum,
      current_year_co2_saved :=
        ((acts.filter (fun a => db.yearStart ≤ a.logged_at)).map
          (fun a => emissionsLbsOf a * lbsToKgFactor)).sum,
      streak_days := 0,
      last_action_date := acts.head?.map (·.logged_at),
      updated_at := db.nowTs }

/-- getUserStatistics: try the production user_stats_summary row, then the
previous-generation user_statistics row, then recompute from the legacy
user_actions.  The legacy user_stats generation announced in the source's
own priority comment is never consulted. -/
def getUserStatistics (db : StatsDB) (u : Nat) : Option UserStatistics :=
  match db.summary.find? (·.user_id == u) with
  | some p =>
    some ⟨p.user_id, p.total_co2_saved_kg, p.total_actions, p.current_month_co2,
          p.current_year_co2, p.streak_days, p.last_action_date, p.updated_at⟩
  | none =>
    match db.prevStats.find? (·.user_id == u) with
    | some p =>
      some ⟨p.user_id, p.total_co2_saved_kg, p.total_actions_count,
            p.current_month_co2_saved, p.current_year_co2_saved, p.streak_days,
            p.last_action_date, p.updated_at⟩
    | none => calculateUserStatisticsFromActions db u

/-- Claim C9 failing input: both newer generations are empty, the legacy
user_stats generation holds a rollup of 5 for actor 7, and the event store
is empty. -/
def db9 : StatsDB := ⟨[], [], [⟨7, 5⟩], [], 0, 0, 100⟩

/-- Claim C9: the actor-rollup read skips the legacy generation.  On db9
the code answers with the recomputed total 0 from the empty event store,
even though the legacy user_stats generation (next in the documented
priority order) holds a present rollup with total 5. -/
theorem getUserStatistics_skips_legacy :
    (getUserStatistics db9 7).map (·.total_co2_saved_kg) = some 0 ∧
    db9.legacy.find? (·.user_id == 7) = some ⟨7, 5⟩ := by
  constructor
  · simp [getUserStatistics, db9, calculateUserStatisticsFromActions, sortRel,
      List.find?, List.filter]
  · simp [db9, List.find?]

end Carbonite
